import Mathlib

/-!
# Verification of the OpenVR FSR app's mod settings and installation engine

Shallow embedding of the repository's Python sources (`app/app_fn.py`,
`app/mod/mod_utils.py`) together with the installation state machine of the
spec, and proofs of the frozen claims about them.

Python dictionaries are modelled as association lists over `String` keys with
first-match lookup; Python values are modelled by the inductive `PyVal`.
-/

set_option autoImplicit false

namespace OpenVrApp

/-- A Python value, as far as the manifest entries of the app need:
`None`, booleans, integers, strings and (nested) lists. -/
inductive PyVal where
  | pynone
  | pybool (b : Bool)
  | pyint (n : Int)
  | pystr (s : String)
  | pylist (xs : List PyVal)

/-- Python truthiness (`bool(v)`) for the values modelled in `PyVal`. -/
def truthy : PyVal → Bool
  | .pynone => false
  | .pybool b => b
  | .pyint n => n != 0
  | .pystr s => !s.isEmpty
  | .pylist xs => !xs.isEmpty

/-- A Python `dict` with string keys: an association list, first match wins. -/
abbrev PyDict (α : Type) : Type := List (String × α)

/-- Attribute dictionary of one manifest entry (`dict` in Python). -/
abbrev Entry : Type := PyDict PyVal

/-- A steam-apps mapping: app id to manifest entry. -/
abbrev Apps : Type := PyDict Entry

/-- Dictionary lookup (`d[k]` / `d.get(k)` as an `Option`). -/
def alookup {α : Type} : PyDict α → String → Option α
  | [], _ => none
  | p :: ps, k => if p.1 = k then some p.2 else alookup ps k

/-- `d.get(k, dflt)`. -/
def agetD {α : Type} (d : PyDict α) (k : String) (dflt : α) : α :=
  (alookup d k).getD dflt

/-- Removal of every binding of a key (`del d[k]` / `d.pop(k)`). -/
def aerase {α : Type} : PyDict α → String → PyDict α
  | [], _ => []
  | p :: ps, k => if p.1 = k then aerase ps k else p :: aerase ps k

/-- Key update `d[k] = v`: the binding for `k` is replaced by `v`. -/
def aset {α : Type} (d : PyDict α) (k : String) (v : α) : PyDict α :=
  (k, v) :: aerase d k

/-- Key membership `k in d`. -/
def amem {α : Type} (d : PyDict α) (k : String) : Bool :=
  (alookup d k).isSome

/-- The key list of a dictionary. -/
def keysOf {α : Type} (d : PyDict α) : List String :=
  d.map (fun p => p.1)

/-- `d1.update(d2)`: every binding of `d2` is written into `d1`. -/
def dupdate {α : Type} (d1 d2 : PyDict α) : PyDict α :=
  d2.foldl (fun acc p => aset acc p.1 p.2) d1

/-- Result of a public operation that returns `{'result': ..., 'msg': ...}`. -/
structure RRes where
  result : Bool
  msg : String

/-- A mod type's file names, as used by `check_mod_data_dir`
(`mod.DLL_NAME` and `mod.settings.CFG_FILE`; the concrete names are
per-mod schema data). -/
structure ModType where
  DLL_NAME : String
  CFG_FILE : String

/-- Path join `Path(dir) / name`. -/
def pjoin (dir name : String) : String := dir ++ "/" ++ name

/-- Embedding of `check_mod_data_dir` from `app/mod/mod_utils.py`.
`fsys` models `Path(...).exists()`; a `None` directory argument is modelled
by `""` (both are falsy in the Python guard `if custom_data_dir and ...`). -/
def check_mod_data_dir (fsys : String → Bool) (mod : ModType)
    (custom_data_dir : String) : Bool :=
  if custom_data_dir != "" && fsys custom_data_dir then
    let dll_exists := fsys (pjoin custom_data_dir mod.DLL_NAME)
    let cfg_exists := fsys (pjoin custom_data_dir mod.CFG_FILE)
    dll_exists && cfg_exists
  else
    false

/-- Python `v in user_apps` for a dict with string keys: only a string
value can be a key. -/
def pyKeyMem (user_apps : Apps) (v : PyVal) : Bool :=
  match v with
  | .pystr s => amem user_apps s
  | _ => false

/-- Embedding of `remove_custom_app_fn` from `app/app_fn.py`: takes the
current `AppSettings.user_apps` registry and the request dict, returns the
result object and the updated registry. -/
def remove_custom_app_fn (user_apps : Apps) (app : Entry) : RRes × Apps :=
  let appid := agetD app "appid" PyVal.pynone
  if pyKeyMem user_apps appid then
    match appid with
    | .pystr s =>
        ({ result := true, msg := "App entry " ++ s ++ " created." }, aerase user_apps s)
    | _ => ({ result := false, msg := "Could not find app with Id." }, user_apps)
  else
    ({ result := false, msg := "Could not find app with Id." }, user_apps)

/-- File names of a mod's binary target and config file; the backup name is
derived from the stem and extension of the target binary. -/
structure ModFiles where
  dllStem : String
  dllExt : String
  cfgName : String

/-- The target binary's file name. -/
def dllNameOf (m : ModFiles) : String := m.dllStem ++ m.dllExt

/-- The reserved backup name `<original-stem>.orig<ext>`. -/
def backupNameOf (m : ModFiles) : String := m.dllStem ++ ".orig" ++ m.dllExt

/-- A host directory: its files (name to byte content, bytes as `String`)
and whether it is writable. -/
structure HostDir where
  files : PyDict String
  writable : Bool

/-- Errors of the installation state machine. -/
inductive ModErr where
  | PathUnavailable

/-- Modelled from the spec: transition `install` of the Installation State
Machine (spec section 4.3); the concrete `OpenVRMod.install` code is not part
of the given sources, only its tests are. Steps: precondition check, backup
rename (skipped when a backup already exists from a prior inconsistent
state, in which case the file in place is overwritten), payload write,
config write. -/
def installDir (m : ModFiles) (payload cfgText : String) (d : HostDir) :
    Except ModErr HostDir :=
  if !d.writable then Except.error ModErr.PathUnavailable else
  let fs := d.files
  let fs := match alookup fs (dllNameOf m) with
    | some orig =>
        if amem fs (backupNameOf m) then fs
        else aset (aerase fs (dllNameOf m)) (backupNameOf m) orig
    | none => fs
  let fs := aset fs (dllNameOf m) payload
  let fs := aset fs m.cfgName cfgText
  Except.ok { d with files := fs }

/-- Modelled from the spec: transition `uninstall` of the Installation State
Machine (spec section 4.3); the concrete `OpenVRMod.uninstall` code is not
part of the given sources. Steps: delete the config file if present, then
either move the backup back over the target or delete the mod binary. -/
def uninstallDir (m : ModFiles) (d : HostDir) : Except ModErr HostDir :=
  let fs := aerase d.files m.cfgName
  let fs := match alookup fs (backupNameOf m) with
    | some orig => aset (aerase fs (backupNameOf m)) (dllNameOf m) orig
    | none => aerase fs (dllNameOf m)
  Except.ok { d with files := fs }

/-- Installation state of one (entry, host directory, mod type) triple. -/
structure ModDirState where
  dir : HostDir
  installed : Bool

/-- Modelled from the spec: the toggle semantics of `toggle_install` —
re-invoking install on an `Installed` target flips the state back via
`uninstall`. -/
def toggleInstall (m : ModFiles) (payload cfgText : String) (st : ModDirState) :
    Except ModErr ModDirState :=
  if st.installed then
    match uninstallDir m st.dir with
    | Except.ok d => Except.ok ⟨d, false⟩
    | Except.error e => Except.error e
  else
    match installDir m payload cfgText st.dir with
    | Except.ok d => Except.ok ⟨d, true⟩
    | Except.error e => Except.error e

/-- Result of a public mod operation:
`{'result': ..., 'msg': ..., 'manifest': ...}`. -/
structure FnRes where
  result : Bool
  msg : String
  manifest : Entry

/-- The behaviour of an `FsrMod` method such as `install()`, `uninstall()` or
`update_cfg()`: given the manifest it returns the success flag, the value of
`fsr.error` afterwards, and the (best-effort mutated) manifest. The `FsrMod`
class itself is an external collaborator of `app_fn.py`; per the spec its
hooks do not touch the recorded version field, which is recorded by the
functions below. -/
abbrev ModOp : Type := Entry → Bool × String × Entry

/-- Embedding of `install_fsr_fn` from `app/app_fn.py`. `probe` models
`fsr.get_fsr_version()` on the mutated manifest. -/
def install_fsr_fn (probe : Entry → String) (install : ModOp) (manifest : Entry) :
    FnRes :=
  let r := install manifest
  let install_result := r.1
  let m := r.2.2
  let m := if install_result then aset m "fsrVersion" (PyVal.pystr (probe m)) else m
  { result := install_result, msg := r.2.1, manifest := m }

/-- Embedding of `uninstall_fsr_fn` from `app/app_fn.py`. -/
def uninstall_fsr_fn (uninstall : ModOp) (manifest : Entry) : FnRes :=
  let r := uninstall manifest
  let m := if r.1 then aset r.2.2 "fsrVersion" (PyVal.pystr "") else r.2.2
  { result := r.1, msg := r.2.1, manifest := m }

/-- Embedding of `update_fsr_fn` from `app/app_fn.py`: the reported result is
`all((cfg_result, not fsr.error))`, i.e. the config write succeeded and the
error text is falsy. -/
def update_fsr_fn (probe : Entry → String) (update_cfg : ModOp) (manifest : Entry) :
    FnRes :=
  let r := update_cfg manifest
  let cfg_result := r.1
  let m := if cfg_result then aset r.2.2 "fsrVersion" (PyVal.pystr (probe r.2.2)) else r.2.2
  { result := cfg_result && r.2.1.isEmpty, msg := r.2.1, manifest := m }

/-- Python's `f'{n:03d}'`: the decimal digits of `n` (big-endian),
left-padded with zeros to at least three characters. -/
def fmt03 (n : Nat) : String :=
  let ds := (Nat.digits 10 n).reverse
  String.mk ((List.replicate (3 - ds.length) 0 ++ ds).map Nat.digitChar)

/-- Numeric value of a decimal digit character. -/
def digitVal (c : Char) : Nat := c.toNat - 48

/-- Decimal value of a digit string (inverse of `fmt03` up to padding). -/
def decodeDigits (s : String) : Nat :=
  Nat.ofDigits 10 ((s.data.map digitVal).reverse)

/-- Value equality between a Python value and a string
(`entry.get('path') == path.as_posix()`: only a string can compare equal). -/
def pyStrEq (v : PyVal) (s : String) : Bool :=
  match v with
  | .pystr t => t == s
  | _ => false

/-- The external collaborators used by `add_custom_app_fn`: filesystem
probing (`Path.exists`), path normalization (`Path.as_posix`), the scan for
OpenVR dlls (`ManifestWorker.find_open_vr_dll`), the per-directory config
probe (`FsrSettings.read_from_cfg(p.parent)`), and the settings export
(`FsrSettings().to_js()`). -/
structure AddEnv where
  pexists : String → Bool
  asPosix : String → String
  findOpenVr : String → List String
  parentOf : String → String
  readCfg : String → Bool
  settingsJs : PyVal

/-- The user-app entry dict created by `add_custom_app_fn` once every check
passed, for registration under `app_id = pfx ++ fmt03 counter`. -/
def customAppEntry (pfx : String) (env : AddEnv) (app : Entry) (s : String)
    (counter : Nat) : Entry :=
  let openvr_paths := env.findOpenVr s
  let cfg_results := openvr_paths.map (fun p => env.readCfg (env.parentOf p))
  let app_id := pfx ++ fmt03 counter
  [("appid", PyVal.pystr app_id),
    ("name", agetD app "name" (PyVal.pystr app_id)),
    ("path", PyVal.pystr (env.asPosix s)),
    ("openVrDllPaths",
      PyVal.pylist (openvr_paths.map (fun p => PyVal.pystr (env.asPosix p)))),
    ("openVrDllPathsSelected",
      PyVal.pylist (openvr_paths.map (fun p => PyVal.pystr (env.asPosix p)))),
    ("openVr", PyVal.pybool true),
    ("settings", env.settingsJs),
    ("fsrInstalled", PyVal.pybool (cfg_results.any (fun b => b))),
    ("sizeGb", PyVal.pyint 0),
    ("SizeOnDisk", PyVal.pyint 0),
    ("userApp", PyVal.pybool true)]

/-- Embedding of `add_custom_app_fn` from `app/app_fn.py`. State is the pair
(`AppSettings.user_apps`, `AppSettings.user_app_counter`); `pfx` is the
reserved identifier stem `USER_APP_PREFIX`. A non-string, non-`None` path
value makes the Python `Path()` constructor raise, which the
`capture_app_exceptions` decorator turns into a failure without mutating
state; it is modelled by the same failure result. -/
def add_custom_app_fn (pfx : String) (env : AddEnv) (st : Apps × Nat)
    (app : Entry) : RRes × (Apps × Nat) :=
  match agetD app "path" PyVal.pynone with
  | PyVal.pystr s =>
      if s = "" then ({ result := false, msg := "No valid path provided." }, st)
      else if !env.pexists s then
        ({ result := false, msg := "Provided path does not exist." }, st)
      else if st.1.any (fun p => pyStrEq (agetD p.2 "path" PyVal.pynone) (env.asPosix s)) then
        ({ result := false, msg := "Entry already exists." }, st)
      else
        let openvr_paths := env.findOpenVr s
        if openvr_paths.isEmpty then
          ({ result := false, msg := "No OpenVR dll found." }, st)
        else
          let counter := st.2 + 1
          let app_id := pfx ++ fmt03 counter
          ({ result := true, msg := "App entry " ++ app_id ++ " created." },
            (aset st.1 app_id (customAppEntry pfx env app s counter), counter))
  | _ => ({ result := false, msg := "No valid path provided." }, st)

/-- The restore step of `get_steam_lib_fn` for one scanned entry: the cached
entry's `settings` and `openVrDllPathsSelected` overwrite the scanned
entry's. -/
def restoreEntry (e ce : Entry) : Entry :=
  aset (aset e "settings" (agetD ce "settings" PyVal.pynone))
    "openVrDllPathsSelected" (agetD ce "openVrDllPathsSelected" PyVal.pynone)

/-- One iteration of the cache-restore loop of `get_steam_lib_fn`
(`if app_id in steam_apps: ...`). -/
def restoreStep (acc : Apps) (p : String × Entry) : Apps :=
  match alookup acc p.1 with
  | some e => aset acc p.1 (restoreEntry e p.2)
  | none => acc

/-- The cache-restore loop of `get_steam_lib_fn`
(`for app_id, entry in cached_steam_apps.items(): ...`). -/
def restoreCached (apps cached : Apps) : Apps :=
  cached.foldl restoreStep apps

/-- The merge performed by `get_steam_lib_fn` in `app/app_fn.py`: freshly
scanned apps, restored cached `settings` / `openVrDllPathsSelected`, then
`steam_apps.update(AppSettings.user_apps)`. -/
def get_steam_lib_merge (scanned cached user_apps : Apps) : Apps :=
  dupdate (restoreCached scanned cached) user_apps

/-- The per-entry reduction of `reduce_steam_apps_for_export` in
`app/app_fn.py`: only the fixed public key set survives. `toJs` models
`FsrMod(entry).settings.to_js(export=True)`. -/
def reduceEntry (toJs : Entry → PyVal) (e : Entry) : Entry :=
  [("settings", toJs e),
    ("fsrInstalled", agetD e "fsrInstalled" PyVal.pynone),
    ("fsrVersion", agetD e "fsrVersion" PyVal.pynone),
    ("fsr_compatible", agetD e "fsr_compatible" (PyVal.pybool true)),
    ("name", agetD e "name" PyVal.pynone),
    ("sizeGb", agetD e "sizeGb" PyVal.pynone),
    ("path", agetD e "path" PyVal.pynone),
    ("openVrDllPaths", agetD e "openVrDllPaths" PyVal.pynone),
    ("openVrDllPathsSelected", agetD e "openVrDllPathsSelected" PyVal.pynone),
    ("openVr", agetD e "openVr" PyVal.pynone),
    ("SizeOnDisk", agetD e "SizeOnDisk" PyVal.pynone),
    ("appid", agetD e "appid" PyVal.pynone)]

/-- Embedding of `reduce_steam_apps_for_export` from `app/app_fn.py`. -/
def reduce_steam_apps_for_export (toJs : Entry → PyVal) (steam_apps : Apps) : Apps :=
  steam_apps.map (fun p => (p.1, reduceEntry toJs p.2))

/-- `entry.get('userApp', False) is True`: only the boolean `True` counts. -/
def isUserFlagTrue (v : Option PyVal) : Bool :=
  match v with
  | some (PyVal.pybool b) => b
  | _ => false

/-- The `_showDetails` pop in `_save_steam_lib`: the key is removed when its
value is truthy. -/
def stripDetails (e : Entry) : Entry :=
  if truthy (agetD e "_showDetails" PyVal.pynone) then aerase e "_showDetails" else e

/-- Whether `_save_steam_lib` moves an entry into the user registry:
non-empty id and (`userApp is True` or the id starts with
`USER_APP_PREFIX`). -/
def removeFlagged (pfx : String) (app_id : String) (e : Entry) : Bool :=
  app_id != "" && (isUserFlagTrue (alookup e "userApp") || app_id.startsWith pfx)

/-- Embedding of `_save_steam_lib` from `app/app_fn.py`: pops truthy
`_showDetails` flags (skipping empty ids), moves user entries into
`AppSettings.user_apps`, and persists the reduced remainder as the disk
cache. Returns (saved disk cache, updated user registry). -/
def save_steam_lib (pfx : String) (toJs : Entry → PyVal)
    (steam_apps user_apps : Apps) : Apps × Apps :=
  let stripped := steam_apps.map
    (fun p => if p.1 = "" then p else (p.1, stripDetails p.2))
  let moved := stripped.filter (fun p => removeFlagged pfx p.1 p.2)
  let kept := stripped.filter (fun p => !removeFlagged pfx p.1 p.2)
  (reduce_steam_apps_for_export toJs kept, dupdate user_apps moved)

@[simp] theorem alookup_nil {α : Type} (k : String) :
    alookup ([] : PyDict α) k = none := rfl

@[simp] theorem alookup_cons {α : Type} (p : String × α) (ps : PyDict α) (k : String) :
    alookup (p :: ps) k = if p.1 = k then some p.2 else alookup ps k := rfl

@[simp] theorem alookup_aerase_self {α : Type} (d : PyDict α) (k : String) :
    alookup (aerase d k) k = none := by
  induction d with
  | nil => rfl
  | cons p ps ih =>
      by_cases h : p.1 = k
      · simpa [aerase, h] using ih
      · simpa [aerase, h] using ih

theorem alookup_aerase_ne {α : Type} (d : PyDict α) (k k' : String) (h : k ≠ k') :
    alookup (aerase d k) k' = alookup d k' := by
  induction d with
  | nil => rfl
  | cons p ps ih =>
      by_cases hp : p.1 = k
      · have hne : p.1 ≠ k' := hp ▸ h
        simp only [aerase, if_pos hp, ih, alookup_cons, hne, if_false]
      · simp only [aerase, if_neg hp, alookup_cons]
        by_cases hp' : p.1 = k'
        · simp [hp']
        · simp [hp', ih]

@[simp] theorem alookup_aset_self {α : Type} (d : PyDict α) (k : String) (v : α) :
    alookup (aset d k v) k = some v := by
  simp [aset]

theorem alookup_aset_ne {α : Type} (d : PyDict α) (k k' : String) (v : α) (h : k ≠ k') :
    alookup (aset d k v) k' = alookup d k' := by
  simp [aset, h, alookup_aerase_ne d k k' h]

theorem alookup_eq_none_of_not_mem_keys {α : Type} (d : PyDict α) (k : String)
    (h : k ∉ keysOf d) : alookup d k = none := by
  induction d with
  | nil => rfl
  | cons p ps ih =>
      simp only [keysOf, List.map_cons, List.mem_cons, not_or] at h
      simp only [alookup_cons, Ne.symm h.1, if_false]
      exact ih (by simpa [keysOf] using h.2)

@[simp] theorem dupdate_nil {α : Type} (d1 : PyDict α) :
    dupdate d1 [] = d1 := rfl

@[simp] theorem dupdate_cons {α : Type} (d1 : PyDict α) (p : String × α) (ps : PyDict α) :
    dupdate d1 (p :: ps) = dupdate (aset d1 p.1 p.2) ps := rfl

theorem alookup_dupdate_not_mem {α : Type} (d1 d2 : PyDict α) (k : String)
    (h : alookup d2 k = none) : alookup (dupdate d1 d2) k = alookup d1 k := by
  induction d2 generalizing d1 with
  | nil => rfl
  | cons p ps ih =>
      simp only [alookup_cons] at h
      by_cases hp : p.1 = k
      · simp [hp] at h
      · simp only [hp, if_false] at h
        rw [dupdate_cons, ih (aset d1 p.1 p.2) h, alookup_aset_ne d1 p.1 k p.2 hp]

theorem alookup_dupdate_mem {α : Type} (d1 d2 : PyDict α) (k : String) (v : α)
    (hnd : (keysOf d2).Nodup) (h : alookup d2 k = some v) :
    alookup (dupdate d1 d2) k = some v := by
  induction d2 generalizing d1 with
  | nil => simp at h
  | cons p ps ih =>
      simp only [keysOf, List.map_cons, List.nodup_cons] at hnd
      simp only [alookup_cons] at h
      by_cases hp : p.1 = k
      · simp only [hp, if_true, Option.some.injEq] at h
        have hnone : alookup ps k = none := by
          refine alookup_eq_none_of_not_mem_keys ps k ?_
          simpa [keysOf, hp] using hnd.1
        rw [dupdate_cons, alookup_dupdate_not_mem (aset d1 p.1 p.2) ps k hnone,
          hp, alookup_aset_self, h]
      · simp only [hp, if_false] at h
        rw [dupdate_cons]
        exact ih (aset d1 p.1 p.2) (by simpa [keysOf] using hnd.2) h

@[simp] theorem restoreCached_nil (apps : Apps) : restoreCached apps [] = apps := rfl

@[simp] theorem restoreCached_cons (apps : Apps) (p : String × Entry) (ps : Apps) :
    restoreCached apps (p :: ps) = restoreCached (restoreStep apps p) ps := rfl

theorem alookup_restoreStep_ne (acc : Apps) (p : String × Entry) (k : String)
    (h : p.1 ≠ k) : alookup (restoreStep acc p) k = alookup acc k := by
  unfold restoreStep
  cases hm : alookup acc p.1 with
  | none => rfl
  | some e => exact alookup_aset_ne _ _ _ _ h

theorem alookup_restoreCached_of_disjoint (cached : Apps) :
    ∀ (acc : Apps) (k : String), (∀ p ∈ cached, p.1 ≠ k) →
      alookup (restoreCached acc cached) k = alookup acc k := by
  induction cached with
  | nil => intro acc k _; rfl
  | cons p ps ih =>
      intro acc k h
      rw [restoreCached_cons, ih (restoreStep acc p) k
        (fun q hq => h q (List.mem_cons_of_mem p hq))]
      exact alookup_restoreStep_ne acc p k (h p (List.mem_cons_self p ps))

theorem alookup_restoreCached_of_none (cached : Apps) :
    ∀ (acc : Apps) (k : String), alookup acc k = none →
      alookup (restoreCached acc cached) k = none := by
  induction cached with
  | nil => intro acc k h; exact h
  | cons p ps ih =>
      intro acc k h
      rw [restoreCached_cons]
      refine ih (restoreStep acc p) k ?_
      unfold restoreStep
      cases hm : alookup acc p.1 with
      | none => exact h
      | some e =>
          by_cases hp : p.1 = k
          · rw [hp] at hm; rw [hm] at h; cases h
          · rw [alookup_aset_ne _ _ _ _ hp]; exact h

theorem alookup_restoreCached_of_mem (cached : Apps) :
    ∀ (acc : Apps) (k : String) (e ce : Entry), (keysOf cached).Nodup →
      alookup cached k = some ce → alookup acc k = some e →
      alookup (restoreCached acc cached) k = some (restoreEntry e ce) := by
  induction cached with
  | nil => intro acc k e ce _ hc _; cases hc
  | cons p ps ih =>
      intro acc k e ce hnd hc hacc
      simp only [keysOf, List.map_cons, List.nodup_cons] at hnd
      simp only [alookup_cons] at hc
      by_cases hp : p.1 = k
      · simp only [hp, if_true, Option.some.injEq] at hc
        rw [restoreCached_cons]
        have hdis : ∀ q ∈ ps, q.1 ≠ k := by
          intro q hq hqe
          exact hnd.1 (hp ▸ hqe ▸ List.mem_map.mpr ⟨q, hq, rfl⟩)
        rw [alookup_restoreCached_of_disjoint ps (restoreStep acc p) k hdis]
        have hstep : restoreStep acc p = aset acc k (restoreEntry e p.2) := by
          simp [restoreStep, hp, hacc]
        rw [hstep, alookup_aset_self, hc]
      · simp only [hp, if_false] at hc
        rw [restoreCached_cons]
        refine ih (restoreStep acc p) k e ce (by simpa [keysOf] using hnd.2) hc ?_
        rw [alookup_restoreStep_ne acc p k hp]
        exact hacc

theorem alookup_map_snd {α β : Type} (g : α → β) (l : PyDict α) (k : String) :
    alookup (l.map (fun p => (p.1, g p.2))) k = (alookup l k).map g := by
  induction l with
  | nil => rfl
  | cons p ps ih =>
      by_cases hp : p.1 = k
      · simp [alookup, hp]
      · simpa [alookup, hp] using ih

theorem alookup_stripMap (l : Apps) (k : String) :
    alookup (l.map (fun p => if p.1 = "" then p else (p.1, stripDetails p.2))) k =
      (alookup l k).map (fun e => if k = "" then e else stripDetails e) := by
  induction l with
  | nil => rfl
  | cons p ps ih =>
      by_cases hk : p.1 = k
      · by_cases hp : p.1 = ""
        · have hke : k = "" := hk ▸ hp
          simp [alookup, hp, hk, hke]
        · have hkne : ¬k = "" := fun hc => hp (hk.trans hc)
          simp [alookup, hp, hk, hkne]
      · by_cases hp : p.1 = ""
        · have hk2 : ¬("" = k) := fun hc => hk (hp.trans hc)
          simpa [alookup, hp, hk, hk2] using ih
        · simpa [alookup, hp, hk] using ih

theorem keysOf_filter_nodup {α : Type} (l : PyDict α) (pred : String × α → Bool)
    (hnd : (keysOf l).Nodup) : (keysOf (l.filter pred)).Nodup := by
  refine List.Nodup.sublist ?_ hnd
  exact List.Sublist.map (fun p => p.1) (List.filter_sublist l)

theorem keysOf_stripMap (l : Apps) :
    keysOf (l.map (fun p => if p.1 = "" then p else (p.1, stripDetails p.2))) =
      keysOf l := by
  induction l with
  | nil => rfl
  | cons p ps ih =>
      by_cases hp : p.1 = ""
      · simpa [keysOf, hp] using ih
      · simpa [keysOf, hp] using ih

theorem alookup_filter_of_unique {α : Type} (l : PyDict α) (pred : String × α → Bool)
    (k : String) (v : α) (hnd : (keysOf l).Nodup) (hv : alookup l k = some v) :
    alookup (l.filter pred) k = if pred (k, v) then some v else none := by
  induction l with
  | nil => cases hv
  | cons p ps ih =>
      simp only [keysOf, List.map_cons, List.nodup_cons] at hnd
      simp only [alookup_cons] at hv
      by_cases hp : p.1 = k
      · simp only [hp, if_true, Option.some.injEq] at hv
        have hnone : alookup (ps.filter pred) k = none := by
          refine alookup_eq_none_of_not_mem_keys _ k ?_
          intro hmem
          rcases List.mem_map.mp hmem with ⟨q, hq, hqe⟩
          exact hnd.1 (hp ▸ hqe ▸ List.mem_map.mpr ⟨q, List.mem_of_mem_filter hq, rfl⟩)
        have hpk : p = (k, v) := Prod.ext_iff.mpr ⟨hp, hv⟩
        rw [List.filter_cons]
        by_cases hpred : pred p = true
        · have hpred2 : pred (k, v) = true := hpk ▸ hpred
          simp [hpred, hpred2, alookup, hp, hv]
        · have hpred2 : pred (k, v) = false := by
            rw [← hpk]; exact Bool.eq_false_iff.mpr hpred
          simp [hpred, hpred2, hnone]
      · simp only [hp, if_false] at hv
        rw [List.filter_cons]
        by_cases hpred : pred p = true
        · rw [if_pos hpred]
          simp only [alookup_cons, hp, if_false]
          exact ih (by simpa [keysOf] using hnd.2) hv
        · rw [if_neg hpred]
          exact ih (by simpa [keysOf] using hnd.2) hv

theorem removeFlagged_stripDetails (pfx : String) (k : String) (e : Entry) :
    removeFlagged pfx k (stripDetails e) = removeFlagged pfx k e := by
  unfold removeFlagged stripDetails
  by_cases h : truthy (agetD e "_showDetails" PyVal.pynone) = true
  · rw [if_pos h, alookup_aerase_ne e "_showDetails" "userApp" (by decide)]
  · rw [if_neg h]

/-- C6: `check_mod_data_dir` returns `True` if and only if the path is
non-empty, the directory exists, and both the mod type's binary file
(`DLL_NAME`) and its native config file (`CFG_FILE`) exist directly inside
that directory; in every other case it returns `False`. -/
theorem check_mod_data_dir_iff (fsys : String → Bool) (mod : ModType)
    (custom_data_dir : String) :
    check_mod_data_dir fsys mod custom_data_dir = true ↔
      custom_data_dir ≠ "" ∧ fsys custom_data_dir = true ∧
      fsys (pjoin custom_data_dir mod.DLL_NAME) = true ∧
      fsys (pjoin custom_data_dir mod.CFG_FILE) = true := by
  unfold check_mod_data_dir
  by_cases hne : custom_data_dir = ""
  · simp [hne]
  · by_cases hex : fsys custom_data_dir
    · simp [hne, hex, and_assoc]
    · simp [hne, hex]

/-- C7: when the request's identifier is not a key of the user registry,
`remove_custom_app_fn` returns a failure result with a message and leaves
the registry unchanged; when it is a user-registered entry, exactly that
entry is removed and the operation reports success. -/
theorem remove_custom_app_fn_spec (user_apps : Apps) (app : Entry) :
    (pyKeyMem user_apps (agetD app "appid" PyVal.pynone) = false →
      (remove_custom_app_fn user_apps app).1.result = false ∧
      (remove_custom_app_fn user_apps app).1.msg ≠ "" ∧
      (remove_custom_app_fn user_apps app).2 = user_apps) ∧
    (∀ s : String, agetD app "appid" PyVal.pynone = PyVal.pystr s →
      amem user_apps s = true →
      (remove_custom_app_fn user_apps app).1.result = true ∧
      alookup (remove_custom_app_fn user_apps app).2 s = none ∧
      (∀ k : String, k ≠ s →
        alookup (remove_custom_app_fn user_apps app).2 k = alookup user_apps k)) := by
  constructor
  · intro hmem
    simp [remove_custom_app_fn, hmem]
  · intro s hs hmem
    have hkey : pyKeyMem user_apps (PyVal.pystr s) = true := by
      simpa [pyKeyMem] using hmem
    refine ⟨?_, ?_, ?_⟩
    · simp [remove_custom_app_fn, hs, hkey]
    · simp [remove_custom_app_fn, hs, hkey]
    · intro k hk
      simp only [remove_custom_app_fn, hs, hkey, if_true]
      exact alookup_aerase_ne user_apps s k (Ne.symm hk)

/-- Witness for C7 at a concrete registry and request. -/
theorem remove_custom_app_fn_spec_witness :
    (pyKeyMem [("usr001", [("name", PyVal.pystr "g")])]
        (agetD [("appid", PyVal.pystr "usr002")] "appid" PyVal.pynone) = false ∧
      (remove_custom_app_fn [("usr001", [("name", PyVal.pystr "g")])]
        [("appid", PyVal.pystr "usr002")]).1.result = false) ∧
    (agetD [("appid", PyVal.pystr "usr001")] "appid" PyVal.pynone =
        PyVal.pystr "usr001" ∧
      amem [("usr001", [("name", PyVal.pystr "g")])] "usr001" = true ∧
      (remove_custom_app_fn [("usr001", [("name", PyVal.pystr "g")])]
        [("appid", PyVal.pystr "usr001")]).1.result = true) := by
  refine ⟨⟨by rfl, ?_⟩, by rfl, by rfl, ?_⟩
  · exact ((remove_custom_app_fn_spec [("usr001", [("name", PyVal.pystr "g")])]
      [("appid", PyVal.pystr "usr002")]).1 (by rfl)).1
  · exact (((remove_custom_app_fn_spec [("usr001", [("name", PyVal.pystr "g")])]
      [("appid", PyVal.pystr "usr001")]).2 "usr001" (by rfl) (by rfl))).1

/-- C1: for a writable host directory holding a pre-existing target binary,
the first toggle-install succeeds, leaves a backup named
`<original-stem>.orig<ext>` with the original bytes, writes the config file
and replaces the target with the payload; the second toggle-install succeeds,
restores the original binary and removes both the backup and the config file,
returning the directory to the Absent state. -/
theorem toggle_install_roundtrip (m : ModFiles) (payload cfgText : String)
    (d : HostDir) (orig : String)
    (hw : d.writable = true)
    (horig : alookup d.files (dllNameOf m) = some orig)
    (hnb : alookup d.files (backupNameOf m) = none)
    (hdb : dllNameOf m ≠ backupNameOf m)
    (hdc : dllNameOf m ≠ m.cfgName)
    (hbc : backupNameOf m ≠ m.cfgName) :
    ∃ st1 st2 : ModDirState,
      toggleInstall m payload cfgText ⟨d, false⟩ = Except.ok st1 ∧
      st1.installed = true ∧
      alookup st1.dir.files (backupNameOf m) = some orig ∧
      alookup st1.dir.files (dllNameOf m) = some payload ∧
      alookup st1.dir.files m.cfgName = some cfgText ∧
      toggleInstall m payload cfgText st1 = Except.ok st2 ∧
      st2.installed = false ∧
      alookup st2.dir.files (dllNameOf m) = some orig ∧
      alookup st2.dir.files (backupNameOf m) = none ∧
      alookup st2.dir.files m.cfgName = none := by
  have hmem : amem d.files (backupNameOf m) = false := by simp [amem, hnb]
  have hcb : m.cfgName ≠ backupNameOf m := Ne.symm hbc
  have hcd : m.cfgName ≠ dllNameOf m := Ne.symm hdc
  have hbd : backupNameOf m ≠ dllNameOf m := Ne.symm hdb
  refine ⟨⟨⟨aset (aset (aset (aerase d.files (dllNameOf m)) (backupNameOf m) orig)
      (dllNameOf m) payload) m.cfgName cfgText, d.writable⟩, true⟩,
    ⟨⟨aset (aerase (aerase (aset (aset (aset (aerase d.files (dllNameOf m))
      (backupNameOf m) orig) (dllNameOf m) payload) m.cfgName cfgText)
      m.cfgName) (backupNameOf m)) (dllNameOf m) orig, d.writable⟩, false⟩,
    ?_, rfl, ?_, ?_, ?_, ?_, rfl, ?_, ?_, ?_⟩
  · simp [toggleInstall, installDir, hw, horig, hmem]
  · rw [alookup_aset_ne _ _ _ _ hcb, alookup_aset_ne _ _ _ _ hdb, alookup_aset_self]
  · rw [alookup_aset_ne _ _ _ _ hcd, alookup_aset_self]
  · exact alookup_aset_self _ _ _
  · have hb3 : alookup (aerase (aset (aset (aset (aerase d.files (dllNameOf m))
        (backupNameOf m) orig) (dllNameOf m) payload) m.cfgName cfgText)
        m.cfgName) (backupNameOf m) = some orig := by
      rw [alookup_aerase_ne _ _ _ hcb, alookup_aset_ne _ _ _ _ hcb,
        alookup_aset_ne _ _ _ _ hdb, alookup_aset_self]
    simp [toggleInstall, uninstallDir, hb3]
  · exact alookup_aset_self _ _ _
  · rw [alookup_aset_ne _ _ _ _ hdb]
    exact alookup_aerase_self _ _
  · rw [alookup_aset_ne _ _ _ _ hdc, alookup_aerase_ne _ _ _ hbc]
    exact alookup_aerase_self _ _

/-- Witness for C1: a concrete writable directory holding a ten-byte
placeholder at `openvr_api.dll`. -/
theorem toggle_install_roundtrip_witness :
    alookup (⟨[("openvr_api.dll", "0123456789")], true⟩ : HostDir).files
        (dllNameOf ⟨"openvr_api", ".dll", "openvr_mod.cfg"⟩) = some "0123456789" ∧
    alookup (⟨[("openvr_api.dll", "0123456789")], true⟩ : HostDir).files
        (backupNameOf ⟨"openvr_api", ".dll", "openvr_mod.cfg"⟩) = none ∧
    (∃ st1 st2 : ModDirState,
      toggleInstall ⟨"openvr_api", ".dll", "openvr_mod.cfg"⟩ "PAYLOAD" "cfg"
          ⟨⟨[("openvr_api.dll", "0123456789")], true⟩, false⟩ = Except.ok st1 ∧
      st1.installed = true ∧
      alookup st1.dir.files (backupNameOf ⟨"openvr_api", ".dll", "openvr_mod.cfg"⟩) =
        some "0123456789" ∧
      alookup st1.dir.files (dllNameOf ⟨"openvr_api", ".dll", "openvr_mod.cfg"⟩) =
        some "PAYLOAD" ∧
      alookup st1.dir.files (⟨"openvr_api", ".dll", "openvr_mod.cfg"⟩ : ModFiles).cfgName =
        some "cfg" ∧
      toggleInstall ⟨"openvr_api", ".dll", "openvr_mod.cfg"⟩ "PAYLOAD" "cfg" st1 =
        Except.ok st2 ∧
      st2.installed = false ∧
      alookup st2.dir.files (dllNameOf ⟨"openvr_api", ".dll", "openvr_mod.cfg"⟩) =
        some "0123456789" ∧
      alookup st2.dir.files (backupNameOf ⟨"openvr_api", ".dll", "openvr_mod.cfg"⟩) =
        none ∧
      alookup st2.dir.files (⟨"openvr_api", ".dll", "openvr_mod.cfg"⟩ : ModFiles).cfgName =
        none) := by
  refine ⟨by decide, by decide, ?_⟩
  exact toggle_install_roundtrip ⟨"openvr_api", ".dll", "openvr_mod.cfg"⟩
    "PAYLOAD" "cfg" ⟨[("openvr_api.dll", "0123456789")], true⟩ "0123456789"
    rfl (by decide) (by decide) (by decide) (by decide) (by decide)

/-- C4: on a successful install the probed mod version is recorded on the
entry's `fsrVersion` field; on a successful uninstall it is cleared to the
empty string; when the install or uninstall fails the version field is left
unchanged (the mod hooks themselves do not touch it, per the spec's state
machine). -/
theorem fsr_version_recording (probe : Entry → String) (install uninstall : ModOp)
    (manifest : Entry)
    (hpi : alookup (install manifest).2.2 "fsrVersion" = alookup manifest "fsrVersion")
    (hpu : alookup (uninstall manifest).2.2 "fsrVersion" = alookup manifest "fsrVersion") :
    ((install manifest).1 = true →
      alookup (install_fsr_fn probe install manifest).manifest "fsrVersion" =
        some (PyVal.pystr (probe (install manifest).2.2))) ∧
    ((install manifest).1 = false →
      alookup (install_fsr_fn probe install manifest).manifest "fsrVersion" =
        alookup manifest "fsrVersion") ∧
    ((uninstall manifest).1 = true →
      alookup (uninstall_fsr_fn uninstall manifest).manifest "fsrVersion" =
        some (PyVal.pystr "")) ∧
    ((uninstall manifest).1 = false →
      alookup (uninstall_fsr_fn uninstall manifest).manifest "fsrVersion" =
        alookup manifest "fsrVersion") := by
  refine ⟨?_, ?_, ?_, ?_⟩
  · intro h; simp [install_fsr_fn, h]
  · intro h; simpa [install_fsr_fn, h] using hpi
  · intro h; simp [uninstall_fsr_fn, h]
  · intro h; simpa [uninstall_fsr_fn, h] using hpu

/-- Witness for C4: a succeeding install records the probed version, a
failing uninstall keeps it. -/
theorem fsr_version_recording_witness :
    alookup (install_fsr_fn (fun _ => "v2.1.1") (fun e => (true, "", e))
        [("fsrVersion", PyVal.pystr "old")]).manifest "fsrVersion" =
      some (PyVal.pystr "v2.1.1") ∧
    alookup (uninstall_fsr_fn (fun e => (false, "boom", e))
        [("fsrVersion", PyVal.pystr "old")]).manifest "fsrVersion" =
      some (PyVal.pystr "old") := by
  have h := fsr_version_recording (fun _ => "v2.1.1") (fun e => (true, "", e))
    (fun e => (false, "boom", e)) [("fsrVersion", PyVal.pystr "old")] rfl rfl
  exact ⟨h.1 rfl, by rw [h.2.2.2 rfl]; rfl⟩

/-- C5: every public mod operation (`update_fsr_fn`, `install_fsr_fn`,
`uninstall_fsr_fn`) returns a structured result whose `result` flag reflects
success, whose `msg` carries the mod's error text, and whose `manifest` is
the best-effort updated entry — including on the failure branches, where the
whole structure is still produced. -/
theorem public_mod_ops_structured (probe : Entry → String)
    (update_cfg install uninstall : ModOp) (manifest : Entry) :
    (∀ err m, update_cfg manifest = (false, err, m) →
      update_fsr_fn probe update_cfg manifest = ⟨false, err, m⟩) ∧
    (∀ err m, install manifest = (false, err, m) →
      install_fsr_fn probe install manifest = ⟨false, err, m⟩) ∧
    (∀ err m, uninstall manifest = (false, err, m) →
      uninstall_fsr_fn uninstall manifest = ⟨false, err, m⟩) ∧
    (update_fsr_fn probe update_cfg manifest).msg = (update_cfg manifest).2.1 ∧
    (install_fsr_fn probe install manifest).msg = (install manifest).2.1 ∧
    (uninstall_fsr_fn uninstall manifest).msg = (uninstall manifest).2.1 ∧
    (install_fsr_fn probe install manifest).result = (install manifest).1 ∧
    (uninstall_fsr_fn uninstall manifest).result = (uninstall manifest).1 ∧
    (update_fsr_fn probe update_cfg manifest).result =
      ((update_cfg manifest).1 && (update_cfg manifest).2.1.isEmpty) := by
  refine ⟨?_, ?_, ?_, rfl, rfl, rfl, rfl, rfl, rfl⟩
  · intro err m h; simp [update_fsr_fn, h]
  · intro err m h; simp [install_fsr_fn, h]
  · intro err m h; simp [uninstall_fsr_fn, h]

/-- Witness for C5: the failure branch of each operation still yields the
full structured result. -/
theorem public_mod_ops_structured_witness :
    update_fsr_fn (fun _ => "v") (fun _ => (false, "cfg error", [])) [] =
      ⟨false, "cfg error", []⟩ ∧
    install_fsr_fn (fun _ => "v") (fun _ => (false, "install error", [])) [] =
      ⟨false, "install error", []⟩ ∧
    uninstall_fsr_fn (fun _ => (false, "uninstall error", [])) [] =
      ⟨false, "uninstall error", []⟩ := by
  have h := public_mod_ops_structured (fun _ => "v")
    (fun _ => (false, "cfg error", [])) (fun _ => (false, "install error", []))
    (fun _ => (false, "uninstall error", [])) []
  exact ⟨h.1 "cfg error" [] rfl, h.2.1 "install error" [] rfl,
    h.2.2.1 "uninstall error" [] rfl⟩

theorem ofDigits_replicate_zero (k : Nat) :
    Nat.ofDigits 10 (List.replicate k 0) = 0 := by
  induction k with
  | zero => rfl
  | succ k ih => simp [List.replicate_succ, Nat.ofDigits_cons, ih]

theorem decodeDigits_fmt03 (n : Nat) : decodeDigits (fmt03 n) = n := by
  unfold fmt03 decodeDigits
  show Nat.ofDigits 10
    ((((List.replicate (3 - ((Nat.digits 10 n).reverse).length) 0 ++
      (Nat.digits 10 n).reverse).map Nat.digitChar).map digitVal).reverse) = n
  rw [List.map_map]
  have hid : ∀ x ∈ List.replicate (3 - ((Nat.digits 10 n).reverse).length) 0 ++
      (Nat.digits 10 n).reverse, (digitVal ∘ Nat.digitChar) x = x := by
    intro x hx
    rcases List.mem_append.mp hx with h | h
    · have hx0 : x = 0 := List.eq_of_mem_replicate h
      subst hx0; rfl
    · have hx10 : x < 10 := Nat.digits_lt_base (by norm_num) (List.mem_reverse.mp h)
      show digitVal (Nat.digitChar x) = x
      interval_cases x <;> rfl
  rw [List.map_congr_left hid, List.map_id', List.reverse_append,
    List.reverse_replicate, List.reverse_reverse, Nat.ofDigits_append,
    ofDigits_replicate_zero, Nat.ofDigits_digits, Nat.mul_zero, Nat.add_zero]

theorem fmt03_app_id_inj (pfx : String) (a b : Nat)
    (h : pfx ++ fmt03 a = pfx ++ fmt03 b) : a = b := by
  have h2 : (pfx ++ fmt03 a).data = (pfx ++ fmt03 b).data := congrArg String.data h
  rw [String.data_append, String.data_append] at h2
  have h3 := List.append_cancel_left h2
  have h4 : fmt03 a = fmt03 b := by
    have ha := decodeDigits_fmt03 a
    cases hfa : fmt03 a; cases hfb : fmt03 b
    rw [hfa, hfb] at h3
    exact congrArg String.mk (by simpa using h3)
  rw [← decodeDigits_fmt03 a, h4, decodeDigits_fmt03]

/-- C8: every successful `add_custom_app_fn` call increments the reserved
counter by one and registers the new entry under the identifier
`USER_APP_PREFIX ++ f'{counter:03d}'`; the identifier map is injective in the
counter, so successive successful calls generate pairwise distinct ids. -/
theorem add_custom_app_id_generation (pfx : String) (env : AddEnv)
    (user_apps : Apps) (counter : Nat) (app : Entry) (s : String)
    (hpath : agetD app "path" PyVal.pynone = PyVal.pystr s)
    (hne : s ≠ "")
    (hex : env.pexists s = true)
    (hdup : user_apps.any
      (fun p => pyStrEq (agetD p.2 "path" PyVal.pynone) (env.asPosix s)) = false)
    (hvr : env.findOpenVr s ≠ []) :
    (add_custom_app_fn pfx env (user_apps, counter) app).1.result = true ∧
    (add_custom_app_fn pfx env (user_apps, counter) app).2.2 = counter + 1 ∧
    (∃ e : Entry,
      alookup (add_custom_app_fn pfx env (user_apps, counter) app).2.1
          (pfx ++ fmt03 (counter + 1)) = some e ∧
      agetD e "appid" PyVal.pynone = PyVal.pystr (pfx ++ fmt03 (counter + 1))) ∧
    (∀ a b : Nat, pfx ++ fmt03 a = pfx ++ fmt03 b → a = b) := by
  have hemp : (env.findOpenVr s).isEmpty = false := by
    simpa [List.isEmpty_iff] using hvr
  refine ⟨?_, ?_, ?_, fun a b h => fmt03_app_id_inj pfx a b h⟩
  · simp [add_custom_app_fn, hpath, hne, hex, hdup, hemp]
  · simp [add_custom_app_fn, hpath, hne, hex, hdup, hemp]
  · refine ⟨customAppEntry pfx env app s (counter + 1), ?_, rfl⟩
    simp only [add_custom_app_fn, hpath, hne, if_false, hex, Bool.not_true,
      hdup, hemp, if_true]
    exact alookup_aset_self _ _ _

/-- Witness for C8 at a concrete environment, request and state. -/
theorem add_custom_app_id_generation_witness :
    agetD [("path", PyVal.pystr "g")] "path" PyVal.pynone = PyVal.pystr "g" ∧
    (add_custom_app_fn "Usr#"
      ⟨fun _ => true, fun t => t, fun _ => ["g/openvr_api.dll"], fun _ => "g",
        fun _ => false, PyVal.pylist []⟩
      ([], 0) [("path", PyVal.pystr "g")]).1.result = true ∧
    (add_custom_app_fn "Usr#"
      ⟨fun _ => true, fun t => t, fun _ => ["g/openvr_api.dll"], fun _ => "g",
        fun _ => false, PyVal.pylist []⟩
      ([], 0) [("path", PyVal.pystr "g")]).2.2 = 0 + 1 := by
  have h := add_custom_app_id_generation "Usr#"
    ⟨fun _ => true, fun t => t, fun _ => ["g/openvr_api.dll"], fun _ => "g",
      fun _ => false, PyVal.pylist []⟩
    [] 0 [("path", PyVal.pystr "g")] "g" rfl (by decide) rfl rfl (by decide)
  exact ⟨rfl, h.1, h.2.1⟩

/-- C10: whenever `add_custom_app_fn` fails it returns a failure result with
a message and leaves the user registry and the reserved counter unchanged;
the counter is incremented exactly on the success path. -/
theorem add_custom_app_failure_no_mutation (pfx : String) (env : AddEnv)
    (st : Apps × Nat) (app : Entry) :
    ((add_custom_app_fn pfx env st app).1.result = false →
      (add_custom_app_fn pfx env st app).2 = st ∧
      (add_custom_app_fn pfx env st app).1.msg ≠ "") ∧
    ((add_custom_app_fn pfx env st app).1.result = true →
      (add_custom_app_fn pfx env st app).2.2 = st.2 + 1) := by
  rcases hv : agetD app "path" PyVal.pynone with _ | b | n | s | xs
  · constructor
    · intro _; constructor
      · simp [add_custom_app_fn, hv]
      · simp [add_custom_app_fn, hv]
    · intro h; simp [add_custom_app_fn, hv] at h
  · constructor
    · intro _; constructor
      · simp [add_custom_app_fn, hv]
      · simp [add_custom_app_fn, hv]
    · intro h; simp [add_custom_app_fn, hv] at h
  · constructor
    · intro _; constructor
      · simp [add_custom_app_fn, hv]
      · simp [add_custom_app_fn, hv]
    · intro h; simp [add_custom_app_fn, hv] at h
  · by_cases h1 : s = ""
    · constructor
      · intro _; constructor
        · simp [add_custom_app_fn, hv, h1]
        · simp [add_custom_app_fn, hv, h1]
      · intro h; simp [add_custom_app_fn, hv, h1] at h
    · by_cases h2 : env.pexists s = true
      · by_cases h3 : st.1.any
            (fun p => pyStrEq (agetD p.2 "path" PyVal.pynone) (env.asPosix s)) = true
        · constructor
          · intro _; constructor
            · simp [add_custom_app_fn, hv, h1, h2, h3]
            · simp [add_custom_app_fn, hv, h1, h2, h3]
          · intro h; simp [add_custom_app_fn, hv, h1, h2, h3] at h
        · by_cases h4 : (env.findOpenVr s).isEmpty = true
          · constructor
            · intro _; constructor
              · simp [add_custom_app_fn, hv, h1, h2, h3, h4]
              · simp [add_custom_app_fn, hv, h1, h2, h3, h4]
            · intro h
              simp [add_custom_app_fn, hv, h1, h2, h3, h4] at h
          · constructor
            · intro h
              simp [add_custom_app_fn, hv, h1, h2, h3, h4] at h
            · intro _
              simp [add_custom_app_fn, hv, h1, h2, h3, h4]
      · constructor
        · intro _; constructor
          · simp [add_custom_app_fn, hv, h1, h2]
          · simp [add_custom_app_fn, hv, h1, h2]
        · intro h; simp [add_custom_app_fn, hv, h1, h2] at h
  · constructor
    · intro _; constructor
      · simp [add_custom_app_fn, hv]
      · simp [add_custom_app_fn, hv]
    · intro h; simp [add_custom_app_fn, hv] at h

/-- Witness for C10: a request without a path fails and mutates nothing. -/
theorem add_custom_app_failure_no_mutation_witness :
    (add_custom_app_fn "Usr#"
      ⟨fun _ => false, fun t => t, fun _ => [], fun _ => "", fun _ => false,
        PyVal.pylist []⟩
      ([("Usr#001", [])], 5) []).1.result = false ∧
    (add_custom_app_fn "Usr#"
      ⟨fun _ => false, fun t => t, fun _ => [], fun _ => "", fun _ => false,
        PyVal.pylist []⟩
      ([("Usr#001", [])], 5) []).2 = ([("Usr#001", [])], 5) := by
  refine ⟨rfl, ?_⟩
  exact ((add_custom_app_failure_no_mutation "Usr#"
    ⟨fun _ => false, fun t => t, fun _ => [], fun _ => "", fun _ => false,
      PyVal.pylist []⟩
    ([("Usr#001", [])], 5) []).1 rfl).1

/-- C2: for an identifier present in both the fresh scan and the on-disk
cache (and not shadowed by a user-registry entry, which the disk cache never
contains), `get_steam_lib_fn`'s merge replaces the scanned entry's
`settings` and `openVrDllPathsSelected` with the cached values, while
`openVrDllPaths` and the size/name metadata remain those of the fresh
scan. -/
theorem get_steam_lib_cache_wins (scanned cached user_apps : Apps)
    (id : String) (e ce : Entry)
    (hnd : (keysOf cached).Nodup)
    (hs : alookup scanned id = some e)
    (hc : alookup cached id = some ce)
    (hu : alookup user_apps id = none) :
    alookup (get_steam_lib_merge scanned cached user_apps) id =
      some (restoreEntry e ce) ∧
    alookup (restoreEntry e ce) "settings" =
      some (agetD ce "settings" PyVal.pynone) ∧
    alookup (restoreEntry e ce) "openVrDllPathsSelected" =
      some (agetD ce "openVrDllPathsSelected" PyVal.pynone) ∧
    alookup (restoreEntry e ce) "openVrDllPaths" = alookup e "openVrDllPaths" ∧
    alookup (restoreEntry e ce) "name" = alookup e "name" ∧
    alookup (restoreEntry e ce) "sizeGb" = alookup e "sizeGb" ∧
    alookup (restoreEntry e ce) "SizeOnDisk" = alookup e "SizeOnDisk" := by
  refine ⟨?_, ?_, ?_, ?_, ?_, ?_, ?_⟩
  · unfold get_steam_lib_merge
    rw [alookup_dupdate_not_mem _ _ _ hu]
    exact alookup_restoreCached_of_mem cached scanned id e ce hnd hc hs
  · unfold restoreEntry
    rw [alookup_aset_ne _ _ _ _ (by decide), alookup_aset_self]
  · exact alookup_aset_self _ _ _
  · unfold restoreEntry
    rw [alookup_aset_ne _ _ _ _ (by decide), alookup_aset_ne _ _ _ _ (by decide)]
  · unfold restoreEntry
    rw [alookup_aset_ne _ _ _ _ (by decide), alookup_aset_ne _ _ _ _ (by decide)]
  · unfold restoreEntry
    rw [alookup_aset_ne _ _ _ _ (by decide), alookup_aset_ne _ _ _ _ (by decide)]
  · unfold restoreEntry
    rw [alookup_aset_ne _ _ _ _ (by decide), alookup_aset_ne _ _ _ _ (by decide)]

/-- Witness for C2 at a one-app scan and cache. -/
theorem get_steam_lib_cache_wins_witness :
    alookup [("10", [("settings", PyVal.pystr "CACHED"),
        ("openVrDllPathsSelected", PyVal.pylist [])])] "10" =
      some [("settings", PyVal.pystr "CACHED"),
        ("openVrDllPathsSelected", PyVal.pylist [])] ∧
    alookup (get_steam_lib_merge
        [("10", [("name", PyVal.pystr "Game"), ("openVrDllPaths", PyVal.pylist [])])]
        [("10", [("settings", PyVal.pystr "CACHED"),
          ("openVrDllPathsSelected", PyVal.pylist [])])]
        []) "10" =
      some (restoreEntry
        [("name", PyVal.pystr "Game"), ("openVrDllPaths", PyVal.pylist [])]
        [("settings", PyVal.pystr "CACHED"),
          ("openVrDllPathsSelected", PyVal.pylist [])]) ∧
    alookup (restoreEntry
        [("name", PyVal.pystr "Game"), ("openVrDllPaths", PyVal.pylist [])]
        [("settings", PyVal.pystr "CACHED"),
          ("openVrDllPathsSelected", PyVal.pylist [])]) "settings" =
      some (PyVal.pystr "CACHED") := by
  have h := get_steam_lib_cache_wins
    [("10", [("name", PyVal.pystr "Game"), ("openVrDllPaths", PyVal.pylist [])])]
    [("10", [("settings", PyVal.pystr "CACHED"),
      ("openVrDllPathsSelected", PyVal.pylist [])])]
    [] "10"
    [("name", PyVal.pystr "Game"), ("openVrDllPaths", PyVal.pylist [])]
    [("settings", PyVal.pystr "CACHED"), ("openVrDllPathsSelected", PyVal.pylist [])]
    (by decide) rfl rfl rfl
  exact ⟨rfl, h.1, by rw [h.2.1]; rfl⟩

/-- C3: entries present only in the cache (and not user-registered) are
absent from the merged library; user-registered entries are always included;
and on persisting, user-flagged entries land in the user registry, never in
the reduced disk cache. -/
theorem cache_drop_and_user_retention
    (scanned cached user_apps steam_apps reg : Apps) (pfx : String)
    (toJs : Entry → PyVal) (id : String) (ue e : Entry) :
    (alookup scanned id = none → alookup user_apps id = none →
      alookup (get_steam_lib_merge scanned cached user_apps) id = none) ∧
    ((keysOf user_apps).Nodup → alookup user_apps id = some ue →
      alookup (get_steam_lib_merge scanned cached user_apps) id = some ue) ∧
    ((keysOf steam_apps).Nodup → alookup steam_apps id = some e →
      removeFlagged pfx id e = true →
      alookup (save_steam_lib pfx toJs steam_apps reg).1 id = none ∧
      alookup (save_steam_lib pfx toJs steam_apps reg).2 id =
        some (stripDetails e)) := by
  refine ⟨?_, ?_, ?_⟩
  · intro hs hu
    unfold get_steam_lib_merge
    rw [alookup_dupdate_not_mem _ _ _ hu]
    exact alookup_restoreCached_of_none cached scanned id hs
  · intro hnd hv
    unfold get_steam_lib_merge
    exact alookup_dupdate_mem _ _ _ _ hnd hv
  · intro hnd he hflag
    have hid : ¬(id = "") := by
      intro hc
      rw [hc] at hflag
      simp [removeFlagged] at hflag
    have hstr : alookup (steam_apps.map
        (fun p => if p.1 = "" then p else (p.1, stripDetails p.2))) id =
        some (stripDetails e) := by
      rw [alookup_stripMap, he]
      simp [hid]
    have hndstr : (keysOf (steam_apps.map
        (fun p => if p.1 = "" then p else (p.1, stripDetails p.2)))).Nodup := by
      rw [keysOf_stripMap]; exact hnd
    have hflag2 : removeFlagged pfx id (stripDetails e) = true := by
      rw [removeFlagged_stripDetails]; exact hflag
    constructor
    · have hkept : alookup ((steam_apps.map
          (fun p => if p.1 = "" then p else (p.1, stripDetails p.2))).filter
            (fun p => !removeFlagged pfx p.1 p.2)) id = none := by
        rw [alookup_filter_of_unique _ _ _ _ hndstr hstr]
        simp [hflag2]
      show alookup (reduce_steam_apps_for_export toJs _) id = none
      unfold reduce_steam_apps_for_export
      rw [alookup_map_snd, hkept]
      rfl
    · have hmoved : alookup ((steam_apps.map
          (fun p => if p.1 = "" then p else (p.1, stripDetails p.2))).filter
            (fun p => removeFlagged pfx p.1 p.2)) id = some (stripDetails e) := by
        rw [alookup_filter_of_unique _ _ _ _ hndstr hstr]
        simp [hflag2]
      exact alookup_dupdate_mem _ _ _ _ (keysOf_filter_nodup _ _ hndstr) hmoved

/-- Witness for C3: a cache-only entry is dropped, a user entry is retained,
and a user-flagged entry is moved to the registry, not the disk cache. -/
theorem cache_drop_and_user_retention_witness :
    alookup (get_steam_lib_merge []
      [("20", [("name", PyVal.pystr "stale")])] []) "20" = none ∧
    alookup (get_steam_lib_merge []
      [] [("Usr#001", [("userApp", PyVal.pybool true)])]) "Usr#001" =
      some [("userApp", PyVal.pybool true)] ∧
    alookup (save_steam_lib "Usr#" (fun _ => PyVal.pynone)
      [("Usr#001", [("userApp", PyVal.pybool true)])] []).1 "Usr#001" = none ∧
    alookup (save_steam_lib "Usr#" (fun _ => PyVal.pynone)
      [("Usr#001", [("userApp", PyVal.pybool true)])] []).2 "Usr#001" =
      some (stripDetails [("userApp", PyVal.pybool true)]) := by
  have h1 := (cache_drop_and_user_retention []
    [("20", [("name", PyVal.pystr "stale")])] [] [] [] "Usr#"
    (fun _ => PyVal.pynone) "20" [] []).1 rfl rfl
  have h2 := (cache_drop_and_user_retention [] []
    [("Usr#001", [("userApp", PyVal.pybool true)])] [] [] "Usr#"
    (fun _ => PyVal.pynone) "Usr#001" [("userApp", PyVal.pybool true)] []).2.1
    (by decide) rfl
  have h3 := (cache_drop_and_user_retention [] [] []
    [("Usr#001", [("userApp", PyVal.pybool true)])] [] "Usr#"
    (fun _ => PyVal.pynone) "Usr#001" [] [("userApp", PyVal.pybool true)]).2.2
    (by decide) rfl (by decide)
  exact ⟨h1, h2, h3.1, h3.2⟩

/-- C9: every entry of the reduced export (and hence of the persisted disk
cache written by `_save_steam_lib`) carries exactly the fixed public key
set; in particular `_showDetails` and `userApp` never appear. -/
theorem reduce_export_fixed_keys (toJs : Entry → PyVal)
    (steam_apps reg : Apps) (pfx : String) (id : String) (e : Entry) :
    (alookup (reduce_steam_apps_for_export toJs steam_apps) id = some e →
      keysOf e = ["settings", "fsrInstalled", "fsrVersion", "fsr_compatible",
        "name", "sizeGb", "path", "openVrDllPaths", "openVrDllPathsSelected",
        "openVr", "SizeOnDisk", "appid"] ∧
      alookup e "_showDetails" = none ∧ alookup e "userApp" = none) ∧
    (alookup (save_steam_lib pfx toJs steam_apps reg).1 id = some e →
      keysOf e = ["settings", "fsrInstalled", "fsrVersion", "fsr_compatible",
        "name", "sizeGb", "path", "openVrDllPaths", "openVrDllPathsSelected",
        "openVr", "SizeOnDisk", "appid"] ∧
      alookup e "_showDetails" = none ∧ alookup e "userApp" = none) := by
  have key : ∀ (l : Apps),
      alookup (reduce_steam_apps_for_export toJs l) id = some e →
      keysOf e = ["settings", "fsrInstalled", "fsrVersion", "fsr_compatible",
        "name", "sizeGb", "path", "openVrDllPaths", "openVrDllPathsSelected",
        "openVr", "SizeOnDisk", "appid"] ∧
      alookup e "_showDetails" = none ∧ alookup e "userApp" = none := by
    intro l h
    unfold reduce_steam_apps_for_export at h
    rw [alookup_map_snd] at h
    cases hv : alookup l id with
    | none => rw [hv] at h; cases h
    | some v =>
        rw [hv] at h
        have he : reduceEntry toJs v = e := by
          simpa using h
        have hkeys : keysOf e = ["settings", "fsrInstalled", "fsrVersion",
            "fsr_compatible", "name", "sizeGb", "path", "openVrDllPaths",
            "openVrDllPathsSelected", "openVr", "SizeOnDisk", "appid"] := by
          rw [← he]; rfl
        refine ⟨hkeys, ?_, ?_⟩
        · refine alookup_eq_none_of_not_mem_keys e "_showDetails" ?_
          rw [hkeys]; decide
        · refine alookup_eq_none_of_not_mem_keys e "userApp" ?_
          rw [hkeys]; decide
  refine ⟨key steam_apps, ?_⟩
  intro h
  exact key _ (by simpa [save_steam_lib] using h)

/-- Witness for C9 at a one-entry mapping carrying both internal flags. -/
theorem reduce_export_fixed_keys_witness :
    alookup (reduce_steam_apps_for_export (fun _ => PyVal.pynone)
      [("30", [("_showDetails", PyVal.pybool true),
        ("userApp", PyVal.pybool true)])]) "30" =
      some (reduceEntry (fun _ => PyVal.pynone)
        [("_showDetails", PyVal.pybool true), ("userApp", PyVal.pybool true)]) ∧
    alookup (reduceEntry (fun _ => PyVal.pynone)
      [("_showDetails", PyVal.pybool true), ("userApp", PyVal.pybool true)])
      "_showDetails" = none ∧
    alookup (reduceEntry (fun _ => PyVal.pynone)
      [("_showDetails", PyVal.pybool true), ("userApp", PyVal.pybool true)])
      "userApp" = none := by
  have h := (reduce_export_fixed_keys (fun _ => PyVal.pynone)
    [("30", [("_showDetails", PyVal.pybool true), ("userApp", PyVal.pybool true)])]
    [] "Usr#" "30"
    (reduceEntry (fun _ => PyVal.pynone)
      [("_showDetails", PyVal.pybool true), ("userApp", PyVal.pybool true)])).1
    rfl
  exact ⟨rfl, h.2.1, h.2.2⟩

end OpenVrApp
